import Mathlib

/-!
Shallow embedding of revm's `InnerEvmContext`
(`crates/revm/src/context/inner_evm_context.rs`): the frame factory
(`make_create_frame`, `make_eofcreate_frame`), the frame-return handlers
(`create_return`, `eofcreate_return`) and the account/storage/code entry points,
together with the journaled-state collaborators they consume.

Machine integers are modelled as `Nat` with explicit bounds where overflow
matters (the caller nonce saturates at `u64::MAX`); byte strings are `List Nat`;
fallible operations return `Except`/`Option`.  The return handlers additionally
emit the trace of journal operations they perform (`checkpoint_commit`,
`checkpoint_revert`, `set_code`), which is exactly the sequence of
journaled-state calls the source issues.
-/

/-- 20-byte account identifier, modelled as its list of bytes. -/
abbrev Address : Type := List Nat

/-- Immutable byte sequence. -/
abbrev Bytes : Type := List Nat

/-- Largest value of a `u64`; the caller nonce overflows past this bound. -/
def U64_MAX : Nat := 2 ^ 64 - 1

/-- `MAX_CODE_SIZE` (EIP-170): the fixed 24576-byte ceiling.  `eofcreate_return`
uses it directly; `create_return` uses it only as the default for
`cfg.limit_contract_code_size`. -/
def MAX_CODE_SIZE : Nat := 24576

/-- `gas::CODEDEPOSIT`: per-byte code-deposit charge. -/
def CODEDEPOSIT : Nat := 200

/-- `CALL_STACK_LIMIT`: the frame-depth cap (1024). -/
def CALL_STACK_LIMIT : Nat := 1024

/-- `EOF_MAGIC_BYTES`: the two-byte literal `0xEF00`. -/
def EOF_MAGIC_BYTES : Bytes := [0xEF, 0x00]

/-- `B256::ZERO`: the all-zero 32-byte word. -/
def B256_ZERO : List Nat := List.replicate 32 0

/-- Modelled from the spec (§4.4): the totally ordered hard-fork identifiers;
the `SpecId` enum itself lives in the primitives crate, outside the given
sources.  Only the forks the core consults are listed. -/
inductive SpecId
  | FRONTIER
  | HOMESTEAD
  | SPURIOUS_DRAGON
  | BYZANTIUM
  | ISTANBUL
  | BERLIN
  | LONDON
  | CANCUN
  | PRAGUE
  deriving DecidableEq, Repr

/-- Position of a fork in the total order. -/
def SpecId.toNat : SpecId → Nat
  | .FRONTIER => 0
  | .HOMESTEAD => 1
  | .SPURIOUS_DRAGON => 2
  | .BYZANTIUM => 3
  | .ISTANBUL => 4
  | .BERLIN => 5
  | .LONDON => 6
  | .CANCUN => 7
  | .PRAGUE => 8

/-- `SpecId::is_enabled_in`: `a.is_enabled_in b` holds when the configured fork
`a` activates everything up to and including fork `b`. -/
def SpecId.is_enabled_in (a b : SpecId) : Bool :=
  decide (b.toNat ≤ a.toNat)

/-- Parsed EOF container.  The codec that produces it is external (§4.5); only
the serialized bytes are carried here, the container structure itself is not
consulted by any of the operations under verification. -/
structure Eof where
  bytes : Bytes
  deriving DecidableEq, Repr

/-- Bytecode variants.  The analysed variant's jump-destination table is
omitted: no operation under verification consults it. -/
inductive Bytecode
  | raw (bytes : Bytes)
  | analysed (bytes : Bytes)
  | eof (container : Eof)
  deriving DecidableEq, Repr

/-- `Bytecode::is_eof`. -/
def Bytecode.is_eof : Bytecode → Bool
  | .eof _ => true
  | _ => false

/-- `Bytecode::original_bytes`. -/
def Bytecode.original_bytes : Bytecode → Bytes
  | .raw b => b
  | .analysed b => b
  | .eof c => c.bytes

/-- `Bytecode::new_raw`. -/
def Bytecode.new_raw (b : Bytes) : Bytecode := .raw b

/-- `to_analysed` (interpreter crate): raw bytecode gains its analysis, other
variants pass through.  The jump table is omitted as unused. -/
def to_analysed : Bytecode → Bytecode
  | .raw b => .analysed b
  | b => b

/-- `AnalysisKind` of `cfg.perf_analyse_created_bytecodes`. -/
inductive AnalysisKind
  | raw
  | analyse
  deriving DecidableEq, Repr

/-- The `InstructionResult` kinds the core consumes or produces. -/
inductive InstructionResult
  | Stop
  | Return
  | SelfDestruct
  | Revert
  | CallTooDeep
  | OutOfFunds
  | OutOfGas
  | CreateCollision
  | CreateContractSizeLimit
  | CreateContractStartingWithEF
  | CreateInitCodeStartingEF00
  | InvalidEOFInitCode
  | ReturnContract
  deriving DecidableEq, Repr

/-- Modelled from the spec (§4.6.5, §7): the success class (the `return_ok`
grouping of the interpreter crate, whose macro is outside the given sources):
`Stop`, `Return`, `SelfDestruct`. -/
def InstructionResult.is_ok : InstructionResult → Bool
  | .Stop => true
  | .Return => true
  | .SelfDestruct => true
  | _ => false

/-- Gas accounting record of the interpreter crate. -/
structure Gas where
  limit : Nat
  remaining : Nat
  refunded : Int
  deriving DecidableEq, Repr

/-- `Gas::new`: the full limit is available, nothing refunded. -/
def Gas.new (limit : Nat) : Gas := ⟨limit, limit, 0⟩

/-- `Gas::record_cost`: deduct `cost` from the remaining gas, or fail leaving
the gas unchanged (the `none` case is the `false` return). -/
def Gas.record_cost (g : Gas) (cost : Nat) : Option Gas :=
  if g.remaining < cost then none
  else some { g with remaining := g.remaining - cost }

/-- `InterpreterResult`: result kind, up-to-date gas and output buffer. -/
structure InterpreterResult where
  result : InstructionResult
  gas : Gas
  output : Bytes
  deriving DecidableEq, Repr

/-- Account data.  The storage cache that revm keeps on the enclosing `Account`
record is folded in here; status flags are not tracked (no operation under
verification consults them). -/
structure AccountInfo where
  balance : Nat
  nonce : Nat
  code_hash : List Nat
  code : Option Bytecode
  storage : List (Nat × Nat)
  deriving DecidableEq, Repr

/-- External collaborators, outside the given sources: keccak-256, the
`Address::create` RLP derivation of the primitives crate, the database
capability (§4.1) and the EOF codec (§4.5).  All are pure functions, matching
the spec's requirement that the database is stateless for the duration of a
transaction.  Codec and validation errors are carried as numeric sub-kinds so
that theorems can state independence from them. -/
structure Oracle where
  keccak : Bytes → List Nat
  create : Address → Nat → Address
  basic : Address → Except Nat AccountInfo
  storageLoad : Address → Nat → Except Nat Nat
  codeByHash : List Nat → Except Nat Bytecode
  decodeDangling : Bytes → Except Nat (Eof × Bytes)
  validateEof : Eof → Except Nat Unit
  eofDecode : Bytes → Except Nat Eof

deriving instance DecidableEq for Except

/-- `KECCAK_EMPTY`: hash of the empty byte string. -/
def KECCAK_EMPTY (ext : Oracle) : List Nat := ext.keccak []

/-- `EOF_MAGIC_HASH`: the hash of the two bytes `0xEF00`. -/
def EOF_MAGIC_HASH (ext : Oracle) : List Nat := ext.keccak EOF_MAGIC_BYTES

/-- Modelled from the spec (§6): `Address::create2` of the primitives crate —
the last 20 bytes of `keccak256(0xff ‖ caller ‖ salt ‖ init_code_hash)`. -/
def Address.create2 (keccak : Bytes → List Nat) (caller : Address) (salt : Bytes)
    (code_hash : List Nat) : Address :=
  (keccak (0xff :: (caller ++ salt ++ code_hash))).drop 12

/-- EIP-161 empty-account predicate (§4.3): zero nonce, zero balance, and a
code hash that is either `B256::ZERO` or `KECCAK_EMPTY`. -/
def AccountInfo.is_empty (ext : Oracle) (a : AccountInfo) : Bool :=
  decide ((a.code_hash = B256_ZERO ∨ a.code_hash = KECCAK_EMPTY ext)
    ∧ a.balance = 0 ∧ a.nonce = 0)

/-- Journaled state: the account cache, the current frame depth and the number
of checkpoints opened so far (the spec's opaque checkpoint handle).  Journal
entries themselves are not tracked; the return handlers report their journal
interaction as an explicit operation trace instead. -/
structure JournaledState where
  state : List (Address × AccountInfo)
  depth : Nat
  num_checkpoints : Nat
  deriving DecidableEq, Repr

/-- Association-list lookup for the account cache. -/
def lookupAcc : List (Address × AccountInfo) → Address → Option AccountInfo
  | [], _ => none
  | (k, v) :: rest, a => if k = a then some v else lookupAcc rest a

/-- Association-list insert-or-update for the account cache. -/
def insertAcc : List (Address × AccountInfo) → Address → AccountInfo →
    List (Address × AccountInfo)
  | [], a, v => [(a, v)]
  | (k, w) :: rest, a, v =>
    if k = a then (a, v) :: rest else (k, w) :: insertAcc rest a v

/-- Association-list lookup for a storage slot cache. -/
def lookupSlot : List (Nat × Nat) → Nat → Option Nat
  | [], _ => none
  | (k, v) :: rest, a => if k = a then some v else lookupSlot rest a

/-- Modelled from the spec (§4.3 `load_account`): on a cache miss the account
is fetched from the database and inserted; `is_cold` reflects the cache state
before the call.  The journal's warming entries are not tracked. -/
def JournaledState.load_account (ext : Oracle) (js : JournaledState) (a : Address) :
    Except Nat (AccountInfo × Bool × JournaledState) :=
  match lookupAcc js.state a with
  | some acc => .ok (acc, false, js)
  | none =>
    match ext.basic a with
    | .ok info => .ok (info, true, { js with state := insertAcc js.state a info })
    | .error e => .error e

/-- Modelled from the spec (§4.3 `load_code`): like `load_account`, but the
account's code is guaranteed resolved afterwards: an empty code hash receives
the empty bytecode marker, otherwise the code is fetched by hash. -/
def JournaledState.load_code (ext : Oracle) (js : JournaledState) (a : Address) :
    Except Nat (AccountInfo × Bool × JournaledState) :=
  match js.load_account ext a with
  | .error e => .error e
  | .ok (acc, cold, js1) =>
    match acc.code with
    | some _ => .ok (acc, cold, js1)
    | none =>
      if acc.code_hash = KECCAK_EMPTY ext then
        let acc1 := { acc with code := some (Bytecode.raw []) }
        .ok (acc1, cold, { js1 with state := insertAcc js1.state a acc1 })
      else
        match ext.codeByHash acc.code_hash with
        | .error e => .error e
        | .ok c =>
          let acc1 := { acc with code := some c }
          .ok (acc1, cold, { js1 with state := insertAcc js1.state a acc1 })

/-- Modelled from the spec (§4.3 `inc_nonce`): the new nonce, or `none` on
`u64` overflow.  The account is present in the cache in every calling flow
(it was loaded just beforehand); a missing account also yields `none`. -/
def JournaledState.inc_nonce (js : JournaledState) (a : Address) :
    Option (Nat × JournaledState) :=
  match lookupAcc js.state a with
  | none => none
  | some acc =>
    if acc.nonce = U64_MAX then none
    else
      some (acc.nonce + 1,
        { js with state := insertAcc js.state a { acc with nonce := acc.nonce + 1 } })

/-- Modelled from the spec (§4.3 `sload`): the slot value with its cold flag; a
missing slot is fetched from the database and cached on the account. -/
def JournaledState.sload (ext : Oracle) (js : JournaledState) (a : Address) (key : Nat) :
    Except Nat (Nat × Bool × JournaledState) :=
  match js.load_account ext a with
  | .error e => .error e
  | .ok (acc, _, js1) =>
    match lookupSlot acc.storage key with
    | some v => .ok (v, false, js1)
    | none =>
      match ext.storageLoad a key with
      | .error e => .error e
      | .ok v =>
        let acc1 := { acc with storage := (key, v) :: acc.storage }
        .ok (v, true, { js1 with state := insertAcc js1.state a acc1 })

/-- Modelled from the spec (§4.3 `create_account_checkpoint`): collision
(`nonce > 0` or a non-empty code hash on the target) and the balance are
checked before any mutation; on success a checkpoint is opened, `value` moves
from `caller` to `target`, and the target's nonce is set to 1 iff the spec is
at least Spurious Dragon.  Both accounts were loaded by the callers
beforehand; the defaults are unreachable in those flows. -/
def JournaledState.create_account_checkpoint (ext : Oracle) (js : JournaledState)
    (caller target : Address) (value : Nat) (spec : SpecId) :
    Except InstructionResult (Nat × JournaledState) :=
  let tacc := (lookupAcc js.state target).getD ⟨0, 0, KECCAK_EMPTY ext, none, []⟩
  let cacc := (lookupAcc js.state caller).getD ⟨0, 0, KECCAK_EMPTY ext, none, []⟩
  if tacc.nonce ≠ 0 ∨ tacc.code_hash ≠ KECCAK_EMPTY ext then
    .error .CreateCollision
  else if cacc.balance < value then
    .error .OutOfFunds
  else
    let cp := js.num_checkpoints
    let cacc1 := { cacc with balance := cacc.balance - value }
    let tacc1 := { tacc with
      balance := tacc.balance + value,
      nonce := if spec.is_enabled_in .SPURIOUS_DRAGON then 1 else 0 }
    .ok (cp, { js with
      num_checkpoints := js.num_checkpoints + 1,
      state := insertAcc (insertAcc js.state caller cacc1) target tacc1 })

/-- `ConfigEnv`: the two fields the core consults. -/
structure CfgEnv where
  limit_contract_code_size : Option Nat
  perf_analyse_created_bytecodes : AnalysisKind
  deriving DecidableEq, Repr

/-- `TxEnv`: the two fields the core consults. -/
structure TxEnv where
  caller : Address
  nonce : Option Nat
  deriving DecidableEq, Repr

/-- `Env` restricted to the consulted fields. -/
structure Env where
  cfg : CfgEnv
  tx : TxEnv
  deriving DecidableEq, Repr

/-- The inner EVM context: environment, journaled state and the single-slot
pending database-error holder (`error: Result<(), EVMError>`, with `none`
standing for `Ok(())`).  The database handle itself is the external
`Oracle.basic`/`Oracle.storageLoad`/`Oracle.codeByHash` oracle. -/
structure InnerEvmContext where
  env : Env
  journaled_state : JournaledState
  error : Option Nat
  deriving DecidableEq, Repr

/-- `take_error`: return the pending error, replacing it with `Ok(())`. -/
def InnerEvmContext.take_error (ctx : InnerEvmContext) :
    Option Nat × InnerEvmContext :=
  (ctx.error, { ctx with error := none })

/-- `load_account` (context method, source lines 137–142): delegates directly
to the journaled state. -/
def InnerEvmContext.load_account (ext : Oracle) (ctx : InnerEvmContext) (a : Address) :
    Except Nat ((AccountInfo × Bool) × InnerEvmContext) :=
  match ctx.journaled_state.load_account ext a with
  | .error e => .error e
  | .ok (acc, cold, js1) => .ok ((acc, cold), { ctx with journaled_state := js1 })

/-- `balance` (source lines 157–162): load the account, project its balance
and the cold flag. -/
def InnerEvmContext.balance (ext : Oracle) (ctx : InnerEvmContext) (a : Address) :
    Except Nat ((Nat × Bool) × InnerEvmContext) :=
  match ctx.journaled_state.load_account ext a with
  | .error e => .error e
  | .ok (acc, cold, js1) =>
    .ok ((acc.balance, cold), { ctx with journaled_state := js1 })

/-- `sload` (source lines 199–207): delegates to the journaled state. -/
def InnerEvmContext.sload (ext : Oracle) (ctx : InnerEvmContext) (a : Address)
    (key : Nat) : Except Nat ((Nat × Bool) × InnerEvmContext) :=
  match ctx.journaled_state.sload ext a key with
  | .error e => .error e
  | .ok (v, cold, js1) => .ok ((v, cold), { ctx with journaled_state := js1 })

/-- `code` (source lines 168–180): load the code-resolved account; an EOF
account answers the two-byte `EOF_MAGIC_BYTES`, every other account its
original code bytes.  The source's `unwrap` of the resolved code is the
`getD`, unreachable after `load_code`. -/
def InnerEvmContext.code (ext : Oracle) (ctx : InnerEvmContext) (a : Address) :
    Except Nat ((Bytes × Bool) × InnerEvmContext) :=
  match ctx.journaled_state.load_code ext a with
  | .error e => .error e
  | .ok (acc, cold, js1) =>
    let c := acc.code.getD (Bytecode.raw [])
    if c.is_eof then
      .ok ((EOF_MAGIC_BYTES, cold), { ctx with journaled_state := js1 })
    else
      .ok ((c.original_bytes, cold), { ctx with journaled_state := js1 })

/-- `code_hash` (source lines 187–196): empty accounts answer `B256::ZERO`
first, then EOF accounts answer `EOF_MAGIC_HASH`, all others their stored
code hash. -/
def InnerEvmContext.code_hash (ext : Oracle) (ctx : InnerEvmContext) (a : Address) :
    Except Nat ((List Nat × Bool) × InnerEvmContext) :=
  match ctx.journaled_state.load_code ext a with
  | .error e => .error e
  | .ok (acc, cold, js1) =>
    if acc.is_empty ext then
      .ok ((B256_ZERO, cold), { ctx with journaled_state := js1 })
    else if acc.code.map Bytecode.is_eof = some true then
      .ok ((EOF_MAGIC_HASH ext, cold), { ctx with journaled_state := js1 })
    else
      .ok ((acc.code_hash, cold), { ctx with journaled_state := js1 })

/-- `Contract` record handed to a fresh interpreter. -/
structure Contract where
  input : Bytes
  bytecode : Bytecode
  hash : Option (List Nat)
  target_address : Address
  caller : Address
  call_value : Nat
  deriving DecidableEq, Repr

/-- Interpreter state at frame creation: its contract, gas and flags. -/
structure Interpreter where
  contract : Contract
  gas : Gas
  is_static : Bool
  is_eof_init : Bool
  deriving DecidableEq, Repr

/-- `Interpreter::new(contract, gas_limit, is_static)`. -/
def Interpreter.new (c : Contract) (gas_limit : Nat) (s : Bool) : Interpreter :=
  ⟨c, Gas.new gas_limit, s, false⟩

/-- `FrameOrResult` restricted to the create paths: either a synthetic result
(with the optional created address, `None` at frame setup) or a new frame. -/
inductive FrameOrResult
  | createResult (res : InterpreterResult) (addr : Option Address)
  | createFrame (created_address : Address) (checkpoint : Nat) (interp : Interpreter)
  | eofcreateResult (res : InterpreterResult) (addr : Option Address)
  | eofcreateFrame (created_address : Address) (checkpoint : Nat) (interp : Interpreter)
  deriving DecidableEq, Repr

/-- `CreateScheme`; the CREATE2 salt is carried as its 32 big-endian bytes
(the source converts with `to_be_bytes` at the use site). -/
inductive CreateScheme
  | create
  | create2 (salt : Bytes)
  deriving DecidableEq, Repr

/-- `CreateInputs`. -/
structure CreateInputs where
  caller : Address
  scheme : CreateScheme
  value : Nat
  init_code : Bytes
  gas_limit : Nat
  deriving DecidableEq, Repr

/-- `EOFCreateKind`. -/
inductive EOFCreateKind
  | opcode (initcode : Eof) (input : Bytes) (created_address : Address)
  | tx (initdata : Bytes)
  deriving DecidableEq, Repr

/-- `EOFCreateInputs`. -/
structure EOFCreateInputs where
  caller : Address
  value : Nat
  gas_limit : Nat
  kind : EOFCreateKind
  deriving DecidableEq, Repr

/-- The `return_error` closure of `make_create_frame`: a synthetic result
frame with a fresh `Gas` of the full `gas_limit`, an empty output and no
created address. -/
def synthetic_create_result (gas_limit : Nat) (e : InstructionResult) :
    FrameOrResult :=
  .createResult ⟨e, Gas.new gas_limit, []⟩ none

/-- The `return_error` closure of `make_eofcreate_frame`: the EOF-create
counterpart of `synthetic_create_result`. -/
def synthetic_eofcreate_result (gas_limit : Nat) (e : InstructionResult) :
    FrameOrResult :=
  .eofcreateResult ⟨e, Gas.new gas_limit, []⟩ none

/-- `make_create_frame` (source lines 396–482), translated clause by clause:
depth guard, Prague `0xEF00` init-code guard, balance guard, caller-nonce
bump, address derivation from the pre-bump nonce, warming load of the created
address, `create_account_checkpoint`, and the frame with a raw-bytecode
contract carrying an empty input. -/
def InnerEvmContext.make_create_frame (ext : Oracle) (ctx : InnerEvmContext)
    (spec_id : SpecId) (inputs : CreateInputs) :
    Except Nat (FrameOrResult × InnerEvmContext) :=
  if CALL_STACK_LIMIT < ctx.journaled_state.depth then
    .ok (synthetic_create_result inputs.gas_limit .CallTooDeep, ctx)
  else if spec_id.is_enabled_in .PRAGUE = true
      ∧ inputs.init_code.take 2 = [0xEF, 0x00] then
    .ok (synthetic_create_result inputs.gas_limit .CreateInitCodeStartingEF00, ctx)
  else
    match ctx.journaled_state.load_account ext inputs.caller with
    | .error e => .error e
    | .ok (acc, _, js1) =>
      if acc.balance < inputs.value then
        .ok (synthetic_create_result inputs.gas_limit .OutOfFunds,
          { ctx with journaled_state := js1 })
      else
        match js1.inc_nonce inputs.caller with
        | none =>
          .ok (synthetic_create_result inputs.gas_limit .Return,
            { ctx with journaled_state := js1 })
        | some (new_nonce, js2) =>
          let old_nonce := new_nonce - 1
          let init_code_hash :=
            match inputs.scheme with
            | .create => B256_ZERO
            | .create2 _ => ext.keccak inputs.init_code
          let created_address :=
            match inputs.scheme with
            | .create => ext.create inputs.caller old_nonce
            | .create2 salt =>
              Address.create2 ext.keccak inputs.caller salt
                (ext.keccak inputs.init_code)
          match js2.load_account ext created_address with
          | .error e => .error e
          | .ok (_, _, js3) =>
            match js3.create_account_checkpoint ext inputs.caller created_address
                inputs.value spec_id with
            | .error e =>
              .ok (synthetic_create_result inputs.gas_limit e,
                { ctx with journaled_state := js3 })
            | .ok (cp, js4) =>
              let bytecode := Bytecode.new_raw inputs.init_code
              let contract : Contract :=
                ⟨[], bytecode, some init_code_hash, created_address,
                  inputs.caller, inputs.value⟩
              .ok (.createFrame created_address cp
                    (Interpreter.new contract inputs.gas_limit false),
                { ctx with journaled_state := js4 })

/-- The nonce-sourcing step of `make_eofcreate_frame`'s `Tx` kind (source
lines 272–277): `env.tx.nonce` when set, otherwise the caller account's nonce,
a failed load silently defaulting to 0 (`unwrap_or_default`). -/
def InnerEvmContext.eofcreate_tx_nonce (ext : Oracle) (ctx : InnerEvmContext) :
    Nat × InnerEvmContext :=
  match ctx.env.tx.nonce with
  | some n => (n, ctx)
  | none =>
    match ctx.load_account ext ctx.env.tx.caller with
    | .ok ((acc, _), ctx1) => (acc.nonce, ctx1)
    | .error _ => (0, ctx)

/-- `make_eofcreate_frame` (source lines 246–348): the `Opcode` kind carries
its pre-validated initcode; the `Tx` kind sources the nonce, decodes the
initdata through the EOF codec and validates it, both failures yielding an
`InvalidEOFInitCode` synthetic result.  The common tail mirrors the legacy
path (depth, balance, caller-nonce bump, warming load, checkpoint) and flags
the interpreter as EOF-init. -/
def InnerEvmContext.make_eofcreate_frame (ext : Oracle) (ctx : InnerEvmContext)
    (spec_id : SpecId) (inputs : EOFCreateInputs) :
    Except Nat (FrameOrResult × InnerEvmContext) :=
  let cont := fun (input : Bytes) (initcode : Eof) (created_address : Address)
      (ctx1 : InnerEvmContext) =>
    if CALL_STACK_LIMIT < ctx1.journaled_state.depth then
      Except.ok (synthetic_eofcreate_result inputs.gas_limit .CallTooDeep, ctx1)
    else
      match ctx1.journaled_state.load_account ext inputs.caller with
      | .error e => .error e
      | .ok (acc, _, js1) =>
        if acc.balance < inputs.value then
          .ok (synthetic_eofcreate_result inputs.gas_limit .OutOfFunds,
            { ctx1 with journaled_state := js1 })
        else
          match js1.inc_nonce inputs.caller with
          | none =>
            .ok (synthetic_eofcreate_result inputs.gas_limit .Return,
              { ctx1 with journaled_state := js1 })
          | some (_, js2) =>
            match js2.load_account ext created_address with
            | .error e => .error e
            | .ok (_, _, js3) =>
              match js3.create_account_checkpoint ext inputs.caller
                  created_address inputs.value spec_id with
              | .error e =>
                .ok (synthetic_eofcreate_result inputs.gas_limit e,
                  { ctx1 with journaled_state := js3 })
              | .ok (cp, js4) =>
                let contract : Contract :=
                  ⟨input, Bytecode.eof initcode, none, created_address,
                    inputs.caller, inputs.value⟩
                let interp :=
                  { Interpreter.new contract inputs.gas_limit false with
                    is_eof_init := true }
                .ok (.eofcreateFrame created_address cp interp,
                  { ctx1 with journaled_state := js4 })
  match inputs.kind with
  | .opcode initcode input created_address =>
    cont input initcode created_address ctx
  | .tx initdata =>
    let n := ctx.eofcreate_tx_nonce ext
    match ext.decodeDangling initdata with
    | .error _ =>
      .ok (synthetic_eofcreate_result inputs.gas_limit .InvalidEOFInitCode, n.2)
    | .ok (eof, input) =>
      match ext.validateEof eof with
      | .error _ =>
        .ok (synthetic_eofcreate_result inputs.gas_limit .InvalidEOFInitCode, n.2)
      | .ok _ =>
        cont input eof (ext.create n.2.env.tx.caller n.1) n.2

/-- A journal interaction performed by a return handler, in source order. -/
inductive JournalOp
  | checkpointRevert (cp : Nat)
  | checkpointCommit
  | setCode (address : Address) (code : Bytecode)
  deriving DecidableEq, Repr

/-- The bytecode installed by `create_return`'s commit tail: raw or analysed
per `cfg.perf_analyse_created_bytecodes` (source lines 557–562). -/
def created_bytecode (cfg : CfgEnv) (out : Bytes) : Bytecode :=
  match cfg.perf_analyse_created_bytecodes with
  | .raw => Bytecode.new_raw out
  | .analyse => to_analysed (Bytecode.new_raw out)

/-- The commit tail of `create_return` (source lines 553–567): commit the
checkpoint, install the (possibly analysed) output as code, rewrite the
result to `Return`. -/
def create_return_commit (cfg : CfgEnv) (ir : InterpreterResult)
    (address : Address) : InterpreterResult × List JournalOp :=
  ({ ir with result := .Return },
    [.checkpointCommit, .setCode address (created_bytecode cfg ir.output)])

/-- `create_return` (source lines 501–568), reading `self.env.cfg` through the
`cfg` argument: non-success reverts unchanged; EIP-3541 `0xEF` first-byte
guard (≥ London); EIP-170 size guard against
`cfg.limit_contract_code_size.unwrap_or(MAX_CODE_SIZE)` (≥ Spurious Dragon);
code-deposit charge of `output.len() * CODEDEPOSIT`, an insufficiency being
fatal from Homestead on and silently clearing the output before;
then the commit tail.  The second component is the emitted journal-operation
trace. -/
def create_return (spec : SpecId) (cfg : CfgEnv) (ir : InterpreterResult)
    (address : Address) (cp : Nat) : InterpreterResult × List JournalOp :=
  if ir.result.is_ok = false then
    (ir, [.checkpointRevert cp])
  else if spec.is_enabled_in .LONDON = true ∧ ir.output ≠ []
      ∧ ir.output.head? = some 0xEF then
    ({ ir with result := .CreateContractStartingWithEF }, [.checkpointRevert cp])
  else if spec.is_enabled_in .SPURIOUS_DRAGON = true
      ∧ cfg.limit_contract_code_size.getD MAX_CODE_SIZE < ir.output.length then
    ({ ir with result := .CreateContractSizeLimit }, [.checkpointRevert cp])
  else
    let gas_for_code := ir.output.length * CODEDEPOSIT
    match ir.gas.record_cost gas_for_code with
    | none =>
      if spec.is_enabled_in .HOMESTEAD = true then
        ({ ir with result := .OutOfGas }, [.checkpointRevert cp])
      else
        create_return_commit cfg { ir with output := [] } address
    | some gas1 =>
      create_return_commit cfg { ir with gas := gas1 } address

/-- `eofcreate_return` (source lines 351–393).  The generic `SPEC` parameter
of the source is mirrored by `S` and, exactly as in the source, never
consulted.  Anything but `ReturnContract` reverts with the result untouched;
the size guard uses the fixed `MAX_CODE_SIZE`; a failed code-deposit charge
reverts to `OutOfGas`; otherwise the checkpoint is committed and the output,
re-decoded through the EOF codec, installed as `Bytecode::Eof`.  The `none`
result models the source's `expect` panic on a codec failure. -/
def eofcreate_return (ext : Oracle) (S : SpecId) (ir : InterpreterResult)
    (address : Address) (cp : Nat) :
    Option (InterpreterResult × List JournalOp) :=
  if ir.result ≠ .ReturnContract then
    some (ir, [.checkpointRevert cp])
  else if MAX_CODE_SIZE < ir.output.length then
    some ({ ir with result := .CreateContractSizeLimit }, [.checkpointRevert cp])
  else
    match ir.gas.record_cost (ir.output.length * CODEDEPOSIT) with
    | none =>
      some ({ ir with result := .OutOfGas }, [.checkpointRevert cp])
    | some gas1 =>
      match ext.eofDecode ir.output with
      | .error _ => none
      | .ok c =>
        some ({ ir with gas := gas1 },
          [.checkpointCommit, .setCode address (Bytecode.eof c)])

/-!  Concrete fixtures used by the witness and counterexample theorems. -/

/-- A concrete, fully computable collaborator assignment for witnesses. -/
def oracle0 : Oracle where
  keccak := fun b => List.replicate 32 (b.length % 256)
  create := fun c n => c ++ [n % 256]
  basic := fun a =>
    if a = [9] then .error 7 else .ok ⟨100, 0, List.replicate 32 0, none, []⟩
  storageLoad := fun _ _ => .ok 5
  codeByHash := fun _ => .ok (Bytecode.raw [1])
  decodeDangling := fun b =>
    if b = [0xAA] then .error 3 else .ok (⟨b⟩, [])
  validateEof := fun e => if e.bytes = [0xBB] then .error 4 else .ok ()
  eofDecode := fun b => .ok ⟨b⟩

/-- A funded caller account (balance 100, nonce 3, empty code). -/
def accFunded : AccountInfo := ⟨100, 3, List.replicate 32 0, none, []⟩

/-- A caller account sitting at the `u64` nonce ceiling. -/
def accMaxNonce : AccountInfo := ⟨100, U64_MAX, List.replicate 32 0, none, []⟩

/-- Context with caller `[1]` cached and funded, and a pending error 7. -/
def ctx0 : InnerEvmContext :=
  ⟨⟨⟨none, .raw⟩, ⟨[1], none⟩⟩, ⟨[([1], accFunded)], 0, 0⟩, some 7⟩

/-- Context with caller `[1]` cached at the nonce ceiling, no pending error. -/
def ctxMax : InnerEvmContext :=
  ⟨⟨⟨none, .raw⟩, ⟨[1], none⟩⟩, ⟨[([1], accMaxNonce)], 0, 0⟩, none⟩

/-- Context for the CREATE2 address witness: caller `[1]` cached and funded. -/
def ctxC5 : InnerEvmContext :=
  ⟨⟨⟨none, .raw⟩, ⟨[1], none⟩⟩, ⟨[([1], accFunded)], 0, 0⟩, none⟩

/-- CREATE2 inputs for the address witness. -/
def inputsC5 : CreateInputs := ⟨[1], .create2 (List.replicate 32 0), 0, [0x61], 50⟩

/-- Interpreter produced by the CREATE2 witness run. -/
def itpC5 : Interpreter :=
  ⟨⟨[], Bytecode.raw [0x61], some (List.replicate 32 1), List.replicate 20 66, [1], 0⟩,
    Gas.new 50, false, false⟩

/-- Context produced by the CREATE2 witness run. -/
def ctxC5f : InnerEvmContext :=
  ⟨⟨⟨none, .raw⟩, ⟨[1], none⟩⟩,
    ⟨[([1], { accFunded with nonce := 4 }),
      (List.replicate 20 66, ⟨100, 1, List.replicate 32 0, none, []⟩)], 0, 1⟩, none⟩

/-- Account holding an EOF bytecode (non-empty: nonce 1). -/
def accEof : AccountInfo :=
  ⟨0, 1, List.replicate 32 9, some (.eof ⟨[0xEF, 0x00, 0x01]⟩), []⟩

/-- Context with the EOF account cached at `[2]`. -/
def ctxEof : InnerEvmContext :=
  ⟨⟨⟨none, .raw⟩, ⟨[1], none⟩⟩, ⟨[([2], accEof)], 0, 0⟩, none⟩

/-- Context whose transaction caller `[9]` is uncached and fails to load
(`oracle0.basic [9]` is an error), with no transaction nonce. -/
def ctxC9 : InnerEvmContext :=
  ⟨⟨⟨none, .raw⟩, ⟨[9], none⟩⟩, ⟨[], 0, 0⟩, none⟩

/-!  Helper lemmas about the journaled-state collaborators. -/

theorem lookupAcc_insertAcc_self (s : List (Address × AccountInfo)) (a : Address)
    (v : AccountInfo) : lookupAcc (insertAcc s a v) a = some v := by
  induction s with
  | nil => simp [insertAcc, lookupAcc]
  | cons hd tl ih =>
    obtain ⟨k, w⟩ := hd
    by_cases h : k = a
    · simp [insertAcc, h, lookupAcc]
    · simp [insertAcc, h, lookupAcc, ih]

/-- A successful `load_account` caches the returned account and leaves the
depth and the checkpoint counter untouched. -/
theorem load_account_ok_spec {ext : Oracle} {js js1 : JournaledState}
    {a : Address} {acc : AccountInfo} {cold : Bool}
    (h : js.load_account ext a = .ok (acc, cold, js1)) :
    lookupAcc js1.state a = some acc ∧ js1.depth = js.depth
      ∧ js1.num_checkpoints = js.num_checkpoints := by
  unfold JournaledState.load_account at h
  cases hl : lookupAcc js.state a with
  | some acc0 =>
    rw [hl] at h
    simp only [Except.ok.injEq, Prod.mk.injEq] at h
    obtain ⟨h1, _, h3⟩ := h
    subst h1; subst h3
    exact ⟨hl, rfl, rfl⟩
  | none =>
    rw [hl] at h
    cases hb : ext.basic a with
    | error e => rw [hb] at h; cases h
    | ok info =>
      rw [hb] at h
      simp only [Except.ok.injEq, Prod.mk.injEq] at h
      obtain ⟨h1, _, h3⟩ := h
      subst h1; subst h3
      exact ⟨lookupAcc_insertAcc_self _ _ _, rfl, rfl⟩

/-- `inc_nonce` fails exactly on the `u64` nonce ceiling. -/
theorem inc_nonce_none_of_max {js : JournaledState} {a : Address}
    {acc : AccountInfo} (hl : lookupAcc js.state a = some acc)
    (hm : acc.nonce = U64_MAX) : js.inc_nonce a = none := by
  unfold JournaledState.inc_nonce
  rw [hl]
  simp [hm]

/-- `inc_nonce` below the ceiling returns the bumped nonce and caches it. -/
theorem inc_nonce_some_of_ne {js : JournaledState} {a : Address}
    {acc : AccountInfo} (hl : lookupAcc js.state a = some acc)
    (hm : acc.nonce ≠ U64_MAX) :
    js.inc_nonce a = some (acc.nonce + 1,
      { js with state := insertAcc js.state a { acc with nonce := acc.nonce + 1 } }) := by
  unfold JournaledState.inc_nonce
  rw [hl]
  simp [hm]

/-- C1: `make_create_frame` checks its preconditions in order — (1) depth
beyond `CALL_STACK_LIMIT`, (2) with spec ≥ Prague an init code beginning
`0xEF 0x00`, (3) caller balance below the transfer value, (4) caller-nonce
overflow at `u64::MAX` — and each failure returns a synthetic result frame
(`synthetic_create_result`: fresh `Gas` of the full `gas_limit`, empty
output), with the checkpoint counter unchanged on every failing path. -/
theorem make_create_frame_precondition_order (ext : Oracle)
    (ctx : InnerEvmContext) (spec_id : SpecId) (inputs : CreateInputs)
    (acc : AccountInfo) (cold : Bool) (js1 : JournaledState) :
    (CALL_STACK_LIMIT < ctx.journaled_state.depth →
      ctx.make_create_frame ext spec_id inputs =
        .ok (synthetic_create_result inputs.gas_limit .CallTooDeep, ctx))
    ∧ (ctx.journaled_state.depth ≤ CALL_STACK_LIMIT →
      spec_id.is_enabled_in .PRAGUE = true →
      inputs.init_code.take 2 = [0xEF, 0x00] →
      ctx.make_create_frame ext spec_id inputs =
        .ok (synthetic_create_result inputs.gas_limit .CreateInitCodeStartingEF00, ctx))
    ∧ (ctx.journaled_state.depth ≤ CALL_STACK_LIMIT →
      ¬(spec_id.is_enabled_in .PRAGUE = true ∧ inputs.init_code.take 2 = [0xEF, 0x00]) →
      ctx.journaled_state.load_account ext inputs.caller = .ok (acc, cold, js1) →
      acc.balance < inputs.value →
      ctx.make_create_frame ext spec_id inputs =
        .ok (synthetic_create_result inputs.gas_limit .OutOfFunds,
          { ctx with journaled_state := js1 })
        ∧ js1.num_checkpoints = ctx.journaled_state.num_checkpoints)
    ∧ (ctx.journaled_state.depth ≤ CALL_STACK_LIMIT →
      ¬(spec_id.is_enabled_in .PRAGUE = true ∧ inputs.init_code.take 2 = [0xEF, 0x00]) →
      ctx.journaled_state.load_account ext inputs.caller = .ok (acc, cold, js1) →
      inputs.value ≤ acc.balance →
      acc.nonce = U64_MAX →
      ctx.make_create_frame ext spec_id inputs =
        .ok (synthetic_create_result inputs.gas_limit .Return,
          { ctx with journaled_state := js1 })
        ∧ js1.num_checkpoints = ctx.journaled_state.num_checkpoints) := by
  refine ⟨?_, ?_, ?_, ?_⟩
  · intro h
    unfold InnerEvmContext.make_create_frame
    rw [if_pos h]
  · intro hd h2 h3
    unfold InnerEvmContext.make_create_frame
    rw [if_neg (by omega), if_pos ⟨h2, h3⟩]
  · intro hd hef hload hbal
    unfold InnerEvmContext.make_create_frame
    rw [if_neg (by omega), if_neg hef, hload]
    simp only []
    rw [if_pos hbal]
    exact ⟨rfl, (load_account_ok_spec hload).2.2⟩
  · intro hd hef hload hbal hmax
    have hlk := (load_account_ok_spec hload).1
    unfold InnerEvmContext.make_create_frame
    rw [if_neg (by omega), if_neg hef, hload]
    simp only []
    rw [if_neg (by omega), inc_nonce_none_of_max hlk hmax]
    exact ⟨rfl, (load_account_ok_spec hload).2.2⟩

/-- Witness for C1: a caller at the `u64` nonce ceiling makes
`make_create_frame` return the synthetic `Return` result frame. -/
theorem make_create_frame_precondition_order_witness :
    InnerEvmContext.make_create_frame oracle0 ctxMax .FRONTIER ⟨[1], .create, 0, [], 50⟩ =
      .ok (synthetic_create_result 50 .Return, ctxMax) := by
  have h := (make_create_frame_precondition_order oracle0 ctxMax .FRONTIER
    ⟨[1], .create, 0, [], 50⟩ accMaxNonce false ctxMax.journaled_state).2.2.2
    (by decide) (by decide) (by decide) (by decide) (by decide)
  exact h.1

/-- C5: on the path that reaches address derivation, the created address of a
produced frame depends only on the inputs and the caller's pre-bump nonce:
scheme CREATE uses `ext.create caller acc.nonce` where `acc.nonce` is the
caller's loaded nonce before the bump (the value `inc_nonce` returns minus
one), and CREATE2 uses the last 20 bytes of
`keccak256(0xff ‖ caller ‖ salt ‖ keccak256(init_code))`. -/
theorem make_create_frame_created_address (ext : Oracle) (ctx : InnerEvmContext)
    (spec_id : SpecId) (inputs : CreateInputs) (acc : AccountInfo) (cold : Bool)
    (js1 : JournaledState)
    (hd : ctx.journaled_state.depth ≤ CALL_STACK_LIMIT)
    (hef : ¬(spec_id.is_enabled_in .PRAGUE = true ∧ inputs.init_code.take 2 = [0xEF, 0x00]))
    (hload : ctx.journaled_state.load_account ext inputs.caller = .ok (acc, cold, js1))
    (hbal : inputs.value ≤ acc.balance)
    (hnonce : acc.nonce ≠ U64_MAX) :
    ∀ fr ctx1, ctx.make_create_frame ext spec_id inputs = .ok (fr, ctx1) →
      ∀ a cp itp, fr = .createFrame a cp itp →
        a = match inputs.scheme with
          | .create => ext.create inputs.caller acc.nonce
          | .create2 salt =>
            Address.create2 ext.keccak inputs.caller salt (ext.keccak inputs.init_code) := by
  intro fr ctx1 hrun a cp itp hfr
  subst hfr
  unfold InnerEvmContext.make_create_frame at hrun
  rw [if_neg (by omega), if_neg hef, hload] at hrun
  simp only [] at hrun
  rw [if_neg (by omega),
      inc_nonce_some_of_ne (load_account_ok_spec hload).1 hnonce] at hrun
  simp only [] at hrun
  cases hs : inputs.scheme with
  | create =>
    rw [hs] at hrun
    simp only [Nat.add_sub_cancel] at hrun
    split at hrun
    · cases hrun
    · split at hrun
      · simp [synthetic_create_result] at hrun
      · simp only [Except.ok.injEq, Prod.mk.injEq,
          FrameOrResult.createFrame.injEq] at hrun
        exact hrun.1.1.symm
  | create2 salt =>
    rw [hs] at hrun
    simp only [] at hrun
    split at hrun
    · cases hrun
    · split at hrun
      · simp [synthetic_create_result] at hrun
      · simp only [Except.ok.injEq, Prod.mk.injEq,
          FrameOrResult.createFrame.injEq] at hrun
        exact hrun.1.1.symm

/-- `record_cost` succeeds exactly when the cost fits the remaining gas. -/
theorem record_cost_of_le {g : Gas} {cost : Nat} (h : cost ≤ g.remaining) :
    g.record_cost cost = some { g with remaining := g.remaining - cost } := by
  unfold Gas.record_cost
  rw [if_neg (by omega)]

/-- `record_cost` fails, leaving the gas unchanged, when the cost exceeds the
remaining gas. -/
theorem record_cost_of_lt {g : Gas} {cost : Nat} (h : g.remaining < cost) :
    g.record_cost cost = none := by
  unfold Gas.record_cost
  rw [if_pos h]

/-- Witness for C5: the concrete CREATE2 run derives the address
`keccak(0xff ‖ caller ‖ salt ‖ keccak(init_code))[12:]`. -/
theorem make_create_frame_created_address_witness :
    List.replicate 20 66 =
      Address.create2 oracle0.keccak [1] (List.replicate 32 0) (oracle0.keccak [0x61]) :=
  make_create_frame_created_address oracle0 ctxC5 .LONDON inputsC5 accFunded false
    ctxC5.journaled_state (by decide) (by decide) (by decide) (by decide) (by decide)
    (.createFrame (List.replicate 20 66) 0 itpC5) ctxC5f (by decide)
    (List.replicate 20 66) 0 itpC5 rfl

/-- C2: in `create_return`, on a successful result, spec ≥ London with a
non-empty output whose first byte is `0xEF` reverts the checkpoint and
rewrites the result to `CreateContractStartingWithEF`; otherwise spec ≥
Spurious Dragon with an output longer than `cfg.limit_contract_code_size`
(defaulting to `MAX_CODE_SIZE = 24576` when unset) reverts and rewrites to
`CreateContractSizeLimit`.  Both traces are a bare revert: no code is
installed. -/
theorem create_return_ef_and_size_guards (spec : SpecId) (cfg : CfgEnv)
    (ir : InterpreterResult) (address : Address) (cp : Nat)
    (hok : ir.result.is_ok = true) :
    (spec.is_enabled_in .LONDON = true → ir.output ≠ [] →
      ir.output.head? = some 0xEF →
      create_return spec cfg ir address cp =
        ({ ir with result := .CreateContractStartingWithEF }, [.checkpointRevert cp]))
    ∧ (¬(spec.is_enabled_in .LONDON = true ∧ ir.output ≠ [] ∧ ir.output.head? = some 0xEF) →
      spec.is_enabled_in .SPURIOUS_DRAGON = true →
      cfg.limit_contract_code_size.getD MAX_CODE_SIZE < ir.output.length →
      create_return spec cfg ir address cp =
        ({ ir with result := .CreateContractSizeLimit }, [.checkpointRevert cp]))
    ∧ MAX_CODE_SIZE = 24576 := by
  refine ⟨?_, ?_, rfl⟩
  · intro h1 h2 h3
    unfold create_return
    rw [if_neg (by simp [hok]), if_pos ⟨h1, h2, h3⟩]
  · intro hef h1 h2
    unfold create_return
    rw [if_neg (by simp [hok]), if_neg hef, if_pos ⟨h1, h2⟩]

/-- Witness for C2: an `0xEF`-headed output under London is rewritten. -/
theorem create_return_ef_and_size_guards_witness :
    create_return .LONDON ⟨none, .raw⟩ ⟨.Return, Gas.new 100, [0xEF]⟩ [2] 5 =
      ({ result := .CreateContractStartingWithEF, gas := Gas.new 100, output := [0xEF] },
        [.checkpointRevert 5]) :=
  (create_return_ef_and_size_guards .LONDON ⟨none, .raw⟩
    ⟨.Return, Gas.new 100, [0xEF]⟩ [2] 5 (by decide)).1 (by decide) (by decide) (by decide)

/-- C3: past the EF and size guards, `create_return` charges
`output.len * CODEDEPOSIT` gas; an insufficiency reverts to `OutOfGas` from
Homestead on, but before Homestead only empties the output and continues;
the commit path commits the checkpoint, installs `created_bytecode`
(analysed or raw per `cfg.perf_analyse_created_bytecodes`) on the address
and rewrites the result to `Return`. -/
theorem create_return_code_deposit (spec : SpecId) (cfg : CfgEnv)
    (ir : InterpreterResult) (address : Address) (cp : Nat)
    (hok : ir.result.is_ok = true)
    (hef : ¬(spec.is_enabled_in .LONDON = true ∧ ir.output ≠ []
      ∧ ir.output.head? = some 0xEF))
    (hsz : ¬(spec.is_enabled_in .SPURIOUS_DRAGON = true
      ∧ cfg.limit_contract_code_size.getD MAX_CODE_SIZE < ir.output.length)) :
    (ir.gas.remaining < ir.output.length * CODEDEPOSIT →
      (spec.is_enabled_in .HOMESTEAD = true →
        create_return spec cfg ir address cp =
          ({ ir with result := .OutOfGas }, [.checkpointRevert cp]))
      ∧ (spec.is_enabled_in .HOMESTEAD = false →
        create_return spec cfg ir address cp =
          ({ ir with result := .Return, output := [] },
            [.checkpointCommit, .setCode address (created_bytecode cfg [])])))
    ∧ (ir.output.length * CODEDEPOSIT ≤ ir.gas.remaining →
      create_return spec cfg ir address cp =
        ({ ir with result := .Return, gas := { ir.gas with remaining := ir.gas.remaining - ir.output.length * CODEDEPOSIT } },
          [.checkpointCommit, .setCode address (created_bytecode cfg ir.output)])) := by
  constructor
  · intro hoog
    constructor
    · intro hh
      unfold create_return
      rw [if_neg (by simp [hok]), if_neg hef, if_neg hsz]
      simp only []
      rw [record_cost_of_lt hoog]
      simp only []
      rw [if_pos hh]
    · intro hh
      unfold create_return
      rw [if_neg (by simp [hok]), if_neg hef, if_neg hsz]
      simp only []
      rw [record_cost_of_lt hoog]
      simp only []
      rw [if_neg (by simp [hh])]
      rfl
  · intro hfit
    unfold create_return
    rw [if_neg (by simp [hok]), if_neg hef, if_neg hsz]
    simp only []
    rw [record_cost_of_le hfit]
    rfl

/-- Witness for C3: a pre-Homestead out-of-gas deposit installs an empty
contract and reports `Return`. -/
theorem create_return_code_deposit_witness :
    create_return .FRONTIER ⟨none, .raw⟩ ⟨.Return, ⟨100, 10, 0⟩, [1, 2]⟩ [2] 3 =
      ({ result := .Return, gas := ⟨100, 10, 0⟩, output := [] },
        [.checkpointCommit, .setCode [2] (created_bytecode ⟨none, .raw⟩ [])]) :=
  ((create_return_code_deposit .FRONTIER ⟨none, .raw⟩
    ⟨.Return, ⟨100, 10, 0⟩, [1, 2]⟩ [2] 3
    (by decide) (by decide) (by decide)).1 (by decide)).2 (by decide)

/-- C4: `eofcreate_return` (for every spec `S`, which it never consults):
anything but `ReturnContract` reverts leaving the result untouched; an output
beyond the fixed `MAX_CODE_SIZE` reverts to `CreateContractSizeLimit`; a
failed `output.len * CODEDEPOSIT` charge reverts to `OutOfGas` with no
pre-Homestead carve-out; otherwise the checkpoint is committed and the
output, re-decoded through the EOF codec, is installed as `Bytecode.eof`. -/
theorem eofcreate_return_policy (ext : Oracle) (S : SpecId)
    (ir : InterpreterResult) (address : Address) (cp : Nat) :
    (ir.result ≠ .ReturnContract →
      eofcreate_return ext S ir address cp = some (ir, [.checkpointRevert cp]))
    ∧ (ir.result = .ReturnContract → MAX_CODE_SIZE < ir.output.length →
      eofcreate_return ext S ir address cp =
        some ({ ir with result := .CreateContractSizeLimit }, [.checkpointRevert cp]))
    ∧ (ir.result = .ReturnContract → ir.output.length ≤ MAX_CODE_SIZE →
      ir.gas.remaining < ir.output.length * CODEDEPOSIT →
      eofcreate_return ext S ir address cp =
        some ({ ir with result := .OutOfGas }, [.checkpointRevert cp]))
    ∧ (∀ c, ir.result = .ReturnContract → ir.output.length ≤ MAX_CODE_SIZE →
      ir.output.length * CODEDEPOSIT ≤ ir.gas.remaining →
      ext.eofDecode ir.output = .ok c →
      eofcreate_return ext S ir address cp =
        some ({ ir with gas := { ir.gas with remaining := ir.gas.remaining - ir.output.length * CODEDEPOSIT } },
          [.checkpointCommit, .setCode address (Bytecode.eof c)])) := by
  refine ⟨?_, ?_, ?_, ?_⟩
  · intro h
    unfold eofcreate_return
    rw [if_pos h]
  · intro h1 h2
    unfold eofcreate_return
    rw [if_neg (by simp [h1]), if_pos h2]
  · intro h1 h2 h3
    unfold eofcreate_return
    rw [if_neg (by simp [h1]), if_neg (by omega), record_cost_of_lt h3]
  · intro c h1 h2 h3 hdec
    unfold eofcreate_return
    rw [if_neg (by simp [h1]), if_neg (by omega), record_cost_of_le h3]
    simp only []
    rw [hdec]

/-- Witness for C4: a one-byte `ReturnContract` output is charged 200 gas,
committed and installed as EOF code. -/
theorem eofcreate_return_policy_witness :
    eofcreate_return oracle0 .FRONTIER ⟨.ReturnContract, ⟨100, 400, 0⟩, [7]⟩ [] 2 =
      some ({ result := .ReturnContract, gas := ⟨100, 200, 0⟩, output := [7] },
        [.checkpointCommit, .setCode [] (Bytecode.eof ⟨[7]⟩)]) :=
  (eofcreate_return_policy oracle0 .FRONTIER ⟨.ReturnContract, ⟨100, 400, 0⟩, [7]⟩
    [] 2).2.2.2 ⟨[7]⟩ (by decide) (by decide) (by decide) (by decide)

/-- C6: `code` answers the two-byte `EOF_MAGIC_BYTES` for an EOF account and
the account's original code bytes otherwise; `code_hash` answers `B256_ZERO`
for an empty account, `EOF_MAGIC_HASH` (the keccak of `0xEF00`) for an EOF
account and the stored code hash otherwise, the empty case taking precedence
over the EOF case. -/
theorem code_and_code_hash_eof (ext : Oracle) (ctx : InnerEvmContext)
    (a : Address) (acc : AccountInfo) (cold : Bool) (js1 : JournaledState)
    (hload : ctx.journaled_state.load_code ext a = .ok (acc, cold, js1)) :
    (∀ c, acc.code = some c →
      ctx.code ext a =
        .ok ((if c.is_eof then EOF_MAGIC_BYTES else c.original_bytes, cold),
          { ctx with journaled_state := js1 }))
    ∧ (acc.is_empty ext = true →
      ctx.code_hash ext a =
        .ok ((B256_ZERO, cold), { ctx with journaled_state := js1 }))
    ∧ (acc.is_empty ext = false → acc.code.map Bytecode.is_eof = some true →
      ctx.code_hash ext a =
        .ok ((EOF_MAGIC_HASH ext, cold), { ctx with journaled_state := js1 }))
    ∧ (acc.is_empty ext = false → ¬(acc.code.map Bytecode.is_eof = some true) →
      ctx.code_hash ext a =
        .ok ((acc.code_hash, cold), { ctx with journaled_state := js1 }))
    ∧ EOF_MAGIC_BYTES = [0xEF, 0x00]
    ∧ EOF_MAGIC_HASH ext = ext.keccak [0xEF, 0x00] := by
  refine ⟨?_, ?_, ?_, ?_, rfl, rfl⟩
  · intro c hc
    unfold InnerEvmContext.code
    rw [hload]
    simp only [hc, Option.getD_some]
    cases he : c.is_eof <;> simp [he]
  · intro hempty
    unfold InnerEvmContext.code_hash
    rw [hload]
    simp only []
    rw [if_pos hempty]
  · intro hempty heof
    unfold InnerEvmContext.code_hash
    rw [hload]
    simp only []
    rw [if_neg (by simp [hempty]), if_pos heof]
  · intro hempty heof
    unfold InnerEvmContext.code_hash
    rw [hload]
    simp only []
    rw [if_neg (by simp [hempty]), if_neg heof]

/-- Witness for C6: the cached EOF account at `[2]` answers the EOF magic
hash. -/
theorem code_and_code_hash_eof_witness :
    InnerEvmContext.code_hash oracle0 ctxEof [2] =
      .ok ((EOF_MAGIC_HASH oracle0, false), ctxEof) :=
  (code_and_code_hash_eof oracle0 ctxEof [2] accEof false ctxEof.journaled_state
    (by decide)).2.2.1 (by decide) (by decide)

/-- C7: in `make_eofcreate_frame` with the `Tx` kind, a `decode_dangling`
failure on the initdata, or a structural-validation failure of the decoded
container, each returns the synthetic result frame carrying
`InvalidEOFInitCode` with the full `gas_limit` and an empty output,
independently of the codec's error sub-kind. -/
theorem make_eofcreate_frame_invalid_initcode (ext : Oracle)
    (ctx : InnerEvmContext) (spec_id : SpecId) (inputs : EOFCreateInputs)
    (initdata : Bytes) (hk : inputs.kind = .tx initdata) :
    (∀ e, ext.decodeDangling initdata = .error e →
      ctx.make_eofcreate_frame ext spec_id inputs =
        .ok (synthetic_eofcreate_result inputs.gas_limit .InvalidEOFInitCode,
          (ctx.eofcreate_tx_nonce ext).2))
    ∧ (∀ eof input k, ext.decodeDangling initdata = .ok (eof, input) →
      ext.validateEof eof = .error k →
      ctx.make_eofcreate_frame ext spec_id inputs =
        .ok (synthetic_eofcreate_result inputs.gas_limit .InvalidEOFInitCode,
          (ctx.eofcreate_tx_nonce ext).2)) := by
  constructor
  · intro e hdec
    unfold InnerEvmContext.make_eofcreate_frame
    rw [hk]
    simp only []
    rw [hdec]
  · intro eof input k hdec hval
    unfold InnerEvmContext.make_eofcreate_frame
    rw [hk]
    simp only []
    rw [hdec]
    simp only []
    rw [hval]

/-- Witness for C7: undecodable initdata `[0xAA]` yields the synthetic
`InvalidEOFInitCode` result frame. -/
theorem make_eofcreate_frame_invalid_initcode_witness :
    InnerEvmContext.make_eofcreate_frame oracle0 ctx0 .PRAGUE ⟨[1], 0, 9, .tx [0xAA]⟩ =
      .ok (synthetic_eofcreate_result 9 .InvalidEOFInitCode,
        (InnerEvmContext.eofcreate_tx_nonce oracle0 ctx0).2) :=
  (make_eofcreate_frame_invalid_initcode oracle0 ctx0 .PRAGUE ⟨[1], 0, 9, .tx [0xAA]⟩
    [0xAA] rfl).1 3 (by decide)

/-- C9: in `make_eofcreate_frame` with the `Tx` kind, when `env.tx.nonce` is
unset and the caller account fails to load from the database, the error is
swallowed (`unwrap_or_default`): the nonce-sourcing step returns 0 with the
context untouched, any frame the call produces derives its address from
nonce 0, and the call keeps returning normally (here shown on the
undecodable-initdata path) instead of propagating the database error. -/
theorem make_eofcreate_frame_tx_nonce_default (ext : Oracle)
    (ctx : InnerEvmContext) (spec_id : SpecId) (inputs : EOFCreateInputs)
    (initdata : Bytes) (e : Nat)
    (hk : inputs.kind = .tx initdata)
    (hn : ctx.env.tx.nonce = none)
    (hc : lookupAcc ctx.journaled_state.state ctx.env.tx.caller = none)
    (hdb : ext.basic ctx.env.tx.caller = .error e) :
    ctx.eofcreate_tx_nonce ext = (0, ctx)
    ∧ (∀ a cp itp ctx1,
      ctx.make_eofcreate_frame ext spec_id inputs = .ok (.eofcreateFrame a cp itp, ctx1) →
      a = ext.create ctx.env.tx.caller 0)
    ∧ (∀ k, ext.decodeDangling initdata = .error k →
      ctx.make_eofcreate_frame ext spec_id inputs =
        .ok (synthetic_eofcreate_result inputs.gas_limit .InvalidEOFInitCode, ctx)) := by
  have hnonce : ctx.eofcreate_tx_nonce ext = (0, ctx) := by
    unfold InnerEvmContext.eofcreate_tx_nonce
    rw [hn]
    simp only []
    unfold InnerEvmContext.load_account JournaledState.load_account
    rw [hc]
    simp only []
    rw [hdb]
  refine ⟨hnonce, ?_, ?_⟩
  · intro a cp itp ctx1 hrun
    unfold InnerEvmContext.make_eofcreate_frame at hrun
    rw [hk] at hrun
    simp only [hnonce] at hrun
    cases hdec : ext.decodeDangling initdata with
    | error k =>
      rw [hdec] at hrun
      simp [synthetic_eofcreate_result] at hrun
    | ok p =>
      obtain ⟨eof, input⟩ := p
      rw [hdec] at hrun
      simp only [] at hrun
      cases hval : ext.validateEof eof with
      | error k =>
        rw [hval] at hrun
        simp [synthetic_eofcreate_result] at hrun
      | ok u =>
        rw [hval] at hrun
        simp only [] at hrun
        split at hrun
        · simp [synthetic_eofcreate_result] at hrun
        · split at hrun
          · cases hrun
          · split at hrun
            · simp [synthetic_eofcreate_result] at hrun
            · split at hrun
              · simp [synthetic_eofcreate_result] at hrun
              · split at hrun
                · cases hrun
                · split at hrun
                  · simp [synthetic_eofcreate_result] at hrun
                  · simp only [Except.ok.injEq, Prod.mk.injEq,
                      FrameOrResult.eofcreateFrame.injEq] at hrun
                    exact hrun.1.1.symm
  · intro k hdec
    unfold InnerEvmContext.make_eofcreate_frame
    rw [hk]
    simp only [hnonce]
    rw [hdec]

/-- Witness for C9: with an uncached caller `[9]` whose database load fails,
the nonce-sourcing step silently answers 0 and leaves the context alone. -/
theorem make_eofcreate_frame_tx_nonce_default_witness :
    InnerEvmContext.eofcreate_tx_nonce oracle0 ctxC9 = (0, ctxC9) :=
  (make_eofcreate_frame_tx_nonce_default oracle0 ctxC9 .PRAGUE ⟨[9], 0, 9, .tx [0xAA]⟩
    [0xAA] 7 rfl rfl (by decide) (by decide)).1

/-- Counterexample for C8: with error 7 pending in the single-slot holder,
the public entry point `load_account` neither drains nor propagates it — the
call performs its operation and returns a context that still holds the
pending error. -/
theorem load_account_ignores_pending_error :
    ctx0.error = some 7
    ∧ InnerEvmContext.load_account oracle0 ctx0 [1] = .ok ((accFunded, false), ctx0)
    ∧ (InnerEvmContext.take_error ctx0).1 = some 7 := by
  refine ⟨rfl, by decide, rfl⟩

/-- C8 amended: only `take_error` drains the single-slot pending-error
holder (returning it and resetting the slot to `Ok`); the public entry
points — `load_account`, `balance`, `code`, `sload`, and with them the rest
of the interpreter interface — do not consult the holder at all: they
perform their own operation directly and leave any pending error in place. -/
theorem entry_points_leave_pending_error (ext : Oracle) (ctx : InnerEvmContext)
    (a : Address) (k : Nat) :
    ctx.take_error = (ctx.error, { ctx with error := none })
    ∧ (match ctx.load_account ext a with
       | .ok (_, ctx1) => ctx1.error = ctx.error
       | .error _ => True)
    ∧ (match ctx.balance ext a with
       | .ok (_, ctx1) => ctx1.error = ctx.error
       | .error _ => True)
    ∧ (match ctx.code ext a with
       | .ok (_, ctx1) => ctx1.error = ctx.error
       | .error _ => True)
    ∧ (match ctx.sload ext a k with
       | .ok (_, ctx1) => ctx1.error = ctx.error
       | .error _ => True) := by
  refine ⟨rfl, ?_, ?_, ?_, ?_⟩
  · cases h : ctx.journaled_state.load_account ext a with
    | error e => simp [InnerEvmContext.load_account, h]
    | ok v =>
      obtain ⟨acc, cold, js⟩ := v
      simp [InnerEvmContext.load_account, h]
  · cases h : ctx.journaled_state.load_account ext a with
    | error e => simp [InnerEvmContext.balance, h]
    | ok v =>
      obtain ⟨acc, cold, js⟩ := v
      simp [InnerEvmContext.balance, h]
  · cases h : ctx.journaled_state.load_code ext a with
    | error e => simp [InnerEvmContext.code, h]
    | ok v =>
      obtain ⟨acc, cold, js⟩ := v
      simp only [InnerEvmContext.code, h]
      cases he : (acc.code.getD (Bytecode.raw [])).is_eof <;> simp [he]
  · cases h : ctx.journaled_state.sload ext a k with
    | error e => simp [InnerEvmContext.sload, h]
    | ok v =>
      obtain ⟨val, cold, js⟩ := v
      simp [InnerEvmContext.sload, h]

/-- Branch fact: `create_return` rejects an over-ceiling output under
Spurious Dragon once the EF guard has passed. -/
theorem create_return_size_reject_case {spec : SpecId} {cfg : CfgEnv}
    {ir : InterpreterResult} {address : Address} {cp : Nat}
    (hok : ir.result.is_ok = true)
    (hef : ¬(spec.is_enabled_in .LONDON = true ∧ ir.output ≠ []
      ∧ ir.output.head? = some 0xEF))
    (hsd : spec.is_enabled_in .SPURIOUS_DRAGON = true)
    (hsz : cfg.limit_contract_code_size.getD MAX_CODE_SIZE < ir.output.length) :
    create_return spec cfg ir address cp =
      ({ ir with result := .CreateContractSizeLimit }, [.checkpointRevert cp]) := by
  unfold create_return
  rw [if_neg (by simp [hok]), if_neg hef, if_pos ⟨hsd, hsz⟩]

/-- Branch fact: `create_return` commits once every guard passes and the
code-deposit charge fits. -/
theorem create_return_commit_case {spec : SpecId} {cfg : CfgEnv}
    {ir : InterpreterResult} {address : Address} {cp : Nat}
    (hok : ir.result.is_ok = true)
    (hef : ¬(spec.is_enabled_in .LONDON = true ∧ ir.output ≠ []
      ∧ ir.output.head? = some 0xEF))
    (hsz : ¬(spec.is_enabled_in .SPURIOUS_DRAGON = true
      ∧ cfg.limit_contract_code_size.getD MAX_CODE_SIZE < ir.output.length))
    (hfit : ir.output.length * CODEDEPOSIT ≤ ir.gas.remaining) :
    create_return spec cfg ir address cp =
      ({ ir with result := .Return, gas := { ir.gas with remaining := ir.gas.remaining - ir.output.length * CODEDEPOSIT } },
        [.checkpointCommit, .setCode address (created_bytecode cfg ir.output)]) := by
  unfold create_return
  rw [if_neg (by simp [hok]), if_neg hef, if_neg hsz]
  simp only []
  rw [record_cost_of_le hfit]
  rfl

/-- Branch fact: `eofcreate_return` rejects an output beyond the fixed
`MAX_CODE_SIZE`. -/
theorem eofcreate_return_size_reject_case {ext : Oracle} {S : SpecId}
    {ir : InterpreterResult} {address : Address} {cp : Nat}
    (h1 : ir.result = .ReturnContract) (h2 : MAX_CODE_SIZE < ir.output.length) :
    eofcreate_return ext S ir address cp =
      some ({ ir with result := .CreateContractSizeLimit }, [.checkpointRevert cp]) := by
  unfold eofcreate_return
  rw [if_neg (by simp [h1]), if_pos h2]

/-- Branch fact: `eofcreate_return` commits when the output fits the fixed
ceiling, the charge fits and the codec re-decodes the output. -/
theorem eofcreate_return_commit_case {ext : Oracle} {S : SpecId}
    {ir : InterpreterResult} {address : Address} {cp : Nat} {c : Eof}
    (h1 : ir.result = .ReturnContract) (h2 : ir.output.length ≤ MAX_CODE_SIZE)
    (h3 : ir.output.length * CODEDEPOSIT ≤ ir.gas.remaining)
    (hdec : ext.eofDecode ir.output = .ok c) :
    eofcreate_return ext S ir address cp =
      some ({ ir with gas := { ir.gas with remaining := ir.gas.remaining - ir.output.length * CODEDEPOSIT } },
        [.checkpointCommit, .setCode address (Bytecode.eof c)]) := by
  unfold eofcreate_return
  rw [if_neg (by simp [h1]), if_neg (by omega), record_cost_of_le h3]
  simp only []
  rw [hdec]

/-- C10: `eofcreate_return` compares the output length against the fixed
`MAX_CODE_SIZE` and never consults `cfg.limit_contract_code_size` (it takes
no configuration at all), so for every configured `limit ≠ 24576` the two
handlers' size verdicts disagree: on an output of length
`min limit MAX_CODE_SIZE + 1`, `create_return` rejects with
`CreateContractSizeLimit` exactly when `limit < 24576` and
`eofcreate_return` exactly when `24576 < limit`. -/
theorem eofcreate_size_ceiling_differs (limit : Nat) (h : limit ≠ 24576) :
    ((create_return .PRAGUE ⟨some limit, .raw⟩
        ⟨.Return, Gas.new (CODEDEPOSIT * (min limit MAX_CODE_SIZE + 1)),
          List.replicate (min limit MAX_CODE_SIZE + 1) 0⟩ [] 0).1.result =
        .CreateContractSizeLimit ↔ limit < 24576)
    ∧ ((eofcreate_return oracle0 .PRAGUE
        ⟨.ReturnContract, Gas.new (CODEDEPOSIT * (min limit MAX_CODE_SIZE + 1)),
          List.replicate (min limit MAX_CODE_SIZE + 1) 0⟩ [] 0).map
          (fun p => p.1.result) = some .CreateContractSizeLimit ↔ 24576 < limit)
    ∧ MAX_CODE_SIZE = 24576 := by
  by_cases hlt : limit < 24576
  · have hmin : min limit MAX_CODE_SIZE = limit := by
      unfold MAX_CODE_SIZE
      omega
    rw [hmin]
    refine ⟨?_, ?_, rfl⟩
    · rw [create_return_size_reject_case (by simp [InstructionResult.is_ok])
        (by
          rintro ⟨-, -, hh⟩
          rw [List.replicate_succ] at hh
          simp at hh)
        (by decide)
        (by
          rw [List.length_replicate]
          simp only [Option.getD_some]
          omega)]
      simpa using hlt
    · rw [eofcreate_return_commit_case rfl
        (by
          rw [List.length_replicate]
          unfold MAX_CODE_SIZE
          omega)
        (by
          simp only [List.length_replicate, Gas.new, CODEDEPOSIT]
          omega)
        rfl]
      simp
      omega
  · have hgt : 24576 < limit := by omega
    have hmin : min limit MAX_CODE_SIZE = MAX_CODE_SIZE := by
      unfold MAX_CODE_SIZE
      omega
    rw [hmin]
    refine ⟨?_, ?_, rfl⟩
    · rw [create_return_commit_case (by simp [InstructionResult.is_ok])
        (by
          rintro ⟨-, -, hh⟩
          rw [List.replicate_succ] at hh
          simp at hh)
        (by
          rintro ⟨-, hsz⟩
          rw [List.length_replicate] at hsz
          simp only [Option.getD_some] at hsz
          unfold MAX_CODE_SIZE at hsz
          omega)
        (by
          simp only [List.length_replicate, Gas.new, CODEDEPOSIT]
          omega)]
      simp
      omega
    · rw [eofcreate_return_size_reject_case rfl
        (by
          rw [List.length_replicate]
          omega)]
      simp
      omega

/-- Witness for C10 at `limit = 0`: a one-byte output is over the configured
ceiling for `create_return` but far below the fixed ceiling of
`eofcreate_return`. -/
theorem eofcreate_size_ceiling_differs_witness :
    ((create_return .PRAGUE ⟨some 0, .raw⟩
        ⟨.Return, Gas.new (CODEDEPOSIT * (min 0 MAX_CODE_SIZE + 1)),
          List.replicate (min 0 MAX_CODE_SIZE + 1) 0⟩ [] 0).1.result =
        .CreateContractSizeLimit ↔ (0 : Nat) < 24576)
    ∧ ((eofcreate_return oracle0 .PRAGUE
        ⟨.ReturnContract, Gas.new (CODEDEPOSIT * (min 0 MAX_CODE_SIZE + 1)),
          List.replicate (min 0 MAX_CODE_SIZE + 1) 0⟩ [] 0).map
          (fun p => p.1.result) = some .CreateContractSizeLimit ↔ (24576 : Nat) < 0)
    ∧ MAX_CODE_SIZE = 24576 :=
  eofcreate_size_ceiling_differs 0 (by decide)
